import Mathlib

/-!
Shallow embedding of `processor.py` (class `MalignancyProcessor`) from the
hiera-luna25-finetuning repository, and proofs about the claims of its
specification.

Modelling conventions:
- Python floats are modelled as `ℚ` for the image pipeline (clip/scale and
  channel normalization are field operations) and as `ℝ` for the opaque model
  scores, on which `torch.sigmoid` acts.
- numpy arrays are modelled by `NDArr`: a dynamic shape plus a total
  right-aligned 4-index value function (index order `(dim-4, dim-3, dim-2,
  dim-1)`), so that `torchvision.transforms.v2.Normalize` (which always
  normalizes dimension `-3`, the channel axis) and `Tensor.permute(1, 0, 2, 3)`
  have uniform meanings for rank-3 and rank-4 arrays.
- The collaborators `dataloader.extract_patch` (the coordinate-to-voxel
  resampler) and the three torch models are kept as explicit function
  parameters: the repository's `dataloader` and `models` modules are not part
  of the available source and none of the claims depends on their internals,
  only on the arguments the processor passes to them and on what the processor
  does with their results.  The one exception, `dataloader.clip_and_scale`,
  is modelled from the spec (see its doc comment).
- Observable side effects (logging, checkpoint loading, `model.eval()`, the
  `torch.no_grad()` forward pass) are recorded in an explicit `Event` trace,
  so claims about control flow, eagerness and caching become statements about
  traces.
- Python exceptions are modelled with `Except PyError`.
-/

namespace LUNA25

/-- Head-anchored match of a character pattern: `matchesAt pat l` is true iff
`pat` is an initial segment of `l` (used to model Python's substring test). -/
def matchesAt : List Char → List Char → Bool
  | [], _ => true
  | _ :: _, [] => false
  | a :: as, b :: bs => a == b && matchesAt as bs

/-- `subOccurs pat l` is true iff `pat` occurs contiguously inside `l`. -/
def subOccurs (pat : List Char) : List Char → Bool
  | [] => pat.isEmpty
  | b :: bs => matchesAt pat (b :: bs) || subOccurs pat bs

/-- Python's `sub in s` test on strings. -/
def pyIn (sub s : String) : Bool := subOccurs sub.data s.data

/-- Python's `str.lower()` (ASCII case folding, which covers the model names
and mode strings this processor compares). -/
def pyLower (s : String) : String := ⟨s.data.map Char.toLower⟩

/-- `firstIsSlash s` is true iff `s` begins with the character `/`. -/
def firstIsSlash (s : String) : Bool :=
  match s.data with
  | [] => false
  | c :: _ => c == '/'

/-- `lastIsSlash s` is true iff `s` ends with the character `/`. -/
def lastIsSlash (s : String) : Bool :=
  match s.data.reverse with
  | [] => false
  | c :: _ => c == '/'

/-- POSIX `os.path.join` on two components, as Python computes it: a second
component that is an absolute path replaces everything before it, and a
separator is inserted only when the first component does not already end in
one. -/
def pyPathJoin (a b : String) : String :=
  if firstIsSlash b then b
  else if a.data.isEmpty then b
  else if lastIsSlash a then a ++ b
  else a ++ "/" ++ b

/-- Python exceptions raised by the processor code. -/
inductive PyError where
  | valueError (msg : String)
  | keyError (key : String)
  deriving DecidableEq

/-- The three scorer variants of the processor (3D Hiera, 2D Hiera, 2D ViT). -/
inductive ModelVariant where
  | hiera3D
  | hiera2D
  | vit2D
  deriving DecidableEq

/-- The variant-selection chain of `MalignancyProcessor.__init__`:
`if mode == "3D" and "hiera" in model_name.lower(): ... elif mode == "2D" and
"hiera" in model_name.lower(): ... elif mode == "2D" and "vit" in
model_name.lower(): ... else: raise ValueError(...)`. -/
def selectVariant (mode model_name : String) : Except PyError ModelVariant :=
  if mode == "3D" && pyIn "hiera" (pyLower model_name) then
    Except.ok ModelVariant.hiera3D
  else if mode == "2D" && pyIn "hiera" (pyLower model_name) then
    Except.ok ModelVariant.hiera2D
  else if mode == "2D" && pyIn "vit" (pyLower model_name) then
    Except.ok ModelVariant.vit2D
  else
    Except.error (PyError.valueError "Invalid mode and/or model_name.")

/-- `self.size_px = 64`. -/
def size_px : ℕ := 64

/-- `self.size_mm = 50`. -/
def size_mm : ℚ := 50

/-- `self.depth_px = 16`. -/
def depth_px : ℕ := 16

/-- `self.model_root = "/opt/app/resources/"`. -/
def model_root : String := "/opt/app/resources/"

/-- A world-space 3-vector (coordinates, origins, spacings). -/
abbrev Vec3 := ℚ × ℚ × ℚ

/-- The voxel-to-world orientation matrix of a volume header. -/
abbrev Mat3 := ℕ → ℕ → ℚ

/-- A CT volume: an intensity value at every voxel index. -/
abbrev Image := ℤ → ℤ → ℤ → ℚ

/-- The volume header, a Python dict that may or may not carry each of the
keys `origin`, `spacing` and `transform`; a missing key raises `KeyError`. -/
structure Header where
  origin : Option Vec3
  spacing : Option Vec3
  transform : Option Mat3

/-- The first missing header key in the order the keyword arguments of
`dataloader.extract_patch` are evaluated inside `extract_patch` —
`header["origin"]`, then `header["transform"]`, then `header["spacing"]` —
or `none` when the header is complete.  Python raises `KeyError` for exactly
this key. -/
def firstMissingKey (hdr : Header) : Option String :=
  match hdr.origin with
  | none => some "origin"
  | some _ =>
    match hdr.transform with
    | none => some "transform"
    | some _ =>
      match hdr.spacing with
      | none => some "spacing"
      | some _ => none

/-- A numpy array / torch tensor: dynamic shape plus a total value function
over four right-aligned indices `(dim-4, dim-3, dim-2, dim-1)`; arrays of rank
below 4 ignore the leading indices. -/
structure NDArr where
  shape : List ℕ
  data : ℕ → ℕ → ℕ → ℕ → ℚ

/-- The keyword arguments `MalignancyProcessor.extract_patch` passes to the
collaborator `dataloader.extract_patch`. -/
structure ExtractArgs where
  image : Image
  coord : Vec3
  srcVoxelOrigin : Vec3
  srcWorldMatrix : Mat3
  srcVoxelSpacing : Vec3
  output_shape : List ℕ
  voxel_spacing : ℚ × ℚ × ℚ
  coord_space_world : Bool
  mode : String

/-- Observable side effects of a run, in program order. -/
inductive Event where
  | logInfo (msg : String)
  | dlCall (voxel_spacing : ℚ × ℚ × ℚ) (output_shape : List ℕ) (mode : String)
  | loadCkpt (path : String)
  | loadStateDict
  | setEval
  | forward (gradEnabled : Bool) (batchSize : ℕ)
  deriving DecidableEq

/-- The mutable state of a `MalignancyProcessor` instance after construction
and `define_inputs`: configuration plus the per-request inputs. -/
structure ProcState where
  mode : String
  model_name : String
  suppress_logs : Bool
  image : Image
  header : Header
  coords : List Vec3

/-- The diagnostic logging of `__init__` (`logging.info("Initializing the deep
learning system")` unless `suppress_logs`). -/
def initEvents (suppress_logs : Bool) : List Event :=
  if suppress_logs then [] else [Event.logInfo "Initializing the deep learning system"]

/-- `MalignancyProcessor.__init__`: the init log line followed by the
variant selection. -/
def initProcessor (mode : String) (suppress_logs : Bool) (model_name : String) :
    List Event × Except PyError ModelVariant :=
  (initEvents suppress_logs, selectVariant mode model_name)

/-- `MalignancyProcessor.define_inputs`: stores image, header and coords on
the instance, with no validation of any kind. -/
def define_inputs (st : ProcState) (image : Image) (header : Header)
    (coords : List Vec3) : ProcState :=
  { st with image := image, header := header, coords := coords }

/-- Modelled from the spec: `dataloader.clip_and_scale` is repository code not
available under `src/`.  Spec §4.2 step 1: clamp intensities to a fixed source
value range and linearly rescale to the unit range `[0,1]`; the clamp bounds
are a fixed global constant, not per-request.  The concrete window follows the
public LUNA25 baseline this file's header cites.  `clipLow` is the lower
clamp bound. -/
def clipLow : ℚ := -1000

/-- Modelled from the spec: the upper clamp bound of `clip_and_scale`
(see `clipLow`). -/
def clipHigh : ℚ := 400

/-- Modelled from the spec: `dataloader.clip_and_scale` — clamp a value to the
fixed global range `[clipLow, clipHigh]` and linearly rescale it to `[0,1]`. -/
def clip_and_scale (v : ℚ) : ℚ :=
  (min (max v clipLow) clipHigh - clipLow) / (clipHigh - clipLow)

/-- The per-channel means of the `v2.Normalize` transform chosen in
`extract_patch`: ImageNet statistics when `self.mode == "2D"`, CT statistics
otherwise. -/
def normMean (selfMode : String) : ℕ → ℚ := fun c =>
  (if selfMode == "2D" then [(0.485 : ℚ), 0.456, 0.406]
   else [(0.45 : ℚ), 0.45, 0.45]).getD c 0

/-- The per-channel standard deviations of the `v2.Normalize` transform chosen
in `extract_patch`. -/
def normStd (selfMode : String) : ℕ → ℚ := fun c =>
  (if selfMode == "2D" then [(0.229 : ℚ), 0.224, 0.225]
   else [(0.225 : ℚ), 0.225, 0.225]).getD c 1

/-- `patch.permute(1, 0, 2, 3)`: swap the two leading axes of a rank-4 array
(from `(Depth, Channel, H, W)` to `(Channel, Depth, H, W)`). -/
def permute1023 (p : NDArr) : NDArr :=
  { shape :=
      match p.shape with
      | a :: b :: rest => b :: a :: rest
      | l => l,
    data := fun a b h w => p.data b a h w }

/-- The keyword arguments `extract_patch` builds for
`dataloader.extract_patch`: the header fields, the requested output shape, the
fixed target voxel pitch `size_mm / size_px` on all three axes,
`coord_space_world=True`, and the mode string. -/
def mkArgs (img : Image) (coord : Vec3) (o : Vec3) (t : Mat3) (s : Vec3)
    (oshape : List ℕ) (am : String) : ExtractArgs :=
  { image := img
    coord := coord
    srcVoxelOrigin := o
    srcWorldMatrix := t
    srcVoxelSpacing := s
    output_shape := oshape
    voxel_spacing :=
      (size_mm / (size_px : ℚ), size_mm / (size_px : ℚ), size_mm / (size_px : ℚ))
    coord_space_world := true
    mode := am }

/-- The fixed target voxel-pitch tuple `(size_mm/size_px, size_mm/size_px,
size_mm/size_px)` that `extract_patch` always passes (a name for the tuple
built by `mkArgs`, for use in statements). -/
def spacingTuple : ℚ × ℚ × ℚ :=
  (size_mm / (size_px : ℚ), size_mm / (size_px : ℚ), size_mm / (size_px : ℚ))

/-- `MalignancyProcessor.extract_patch`, specialized to the instance's fixed
`self.mode` (`selfMode`): look up `header["origin"]`, `header["transform"]`,
`header["spacing"]` in evaluation order (a missing key raises `KeyError`
there, at the call site of `dataloader.extract_patch`), call the resampler
`dl`, cast to float (identity in this rational model), apply
`dataloader.clip_and_scale`, apply the mode-dependent `v2.Normalize`
(subtract the per-channel mean, divide by the per-channel std, on dimension
`-3`), and in 3D mode permute axes to `(Channel, Depth, Height, Width)`. -/
def extract_patch (dl : ExtractArgs → NDArr) (selfMode : String) (img : Image)
    (hdr : Header) (coord : Vec3) (oshape : List ℕ) (am : String) :
    List Event × Except PyError NDArr :=
  match hdr.origin with
  | none => ([], Except.error (PyError.keyError "origin"))
  | some o =>
    match hdr.transform with
    | none => ([], Except.error (PyError.keyError "transform"))
    | some t =>
      match hdr.spacing with
      | none => ([], Except.error (PyError.keyError "spacing"))
      | some s =>
        let args := mkArgs img coord o t s oshape am
        let patch := dl args
        let clipped : NDArr :=
          { patch with data := fun a c h w => clip_and_scale (patch.data a c h w) }
        let normed : NDArr :=
          { clipped with
            data := fun a c h w =>
              (clipped.data a c h w - normMean selfMode c) / normStd selfMode c }
        let final := if selfMode == "3D" then permute1023 normed else normed
        ([Event.dlCall args.voxel_spacing args.output_shape args.mode], Except.ok final)

/-- The per-candidate extraction loop of `_process_model`: extract one patch
per coordinate, in input order; the first exception aborts the loop and
propagates. -/
def extractLoop (dl : ExtractArgs → NDArr) (sm : String) (img : Image)
    (hdr : Header) (oshape : List ℕ) :
    List Vec3 → List Event × Except PyError (List NDArr)
  | [] => ([], Except.ok [])
  | c :: cs =>
    let r1 := extract_patch dl sm img hdr c oshape sm
    match r1.2 with
    | Except.error e => (r1.1, Except.error e)
    | Except.ok p =>
      let r2 := extractLoop dl sm img hdr oshape cs
      match r2.2 with
      | Except.error e => (r1.1 ++ r2.1, Except.error e)
      | Except.ok ps => (r1.1 ++ r2.1, Except.ok (p :: ps))

/-- The checkpoint path of `_process_model`:
`os.path.join(self.model_root, self.model_name, "best_metric_model.pth")`. -/
def loadPath (model_name : String) : String :=
  pyPathJoin (pyPathJoin model_root model_name) "best_metric_model.pth"

/-- The `output_shape` `_process_model` computes from the mode:
`[self.depth_px, self.size_px, self.size_px]` when `mode == "3D"`, else
`[1, self.size_px, self.size_px]`. -/
def outputShapeFor (mode : String) : List ℕ :=
  if mode == "3D" then [depth_px, size_px, size_px] else [1, size_px, size_px]

/-- The model `_process_model` picks from the mode: `self.model_3d` when
`mode == "3D"`, else `self.model_2d`. -/
def pickModel (mode : String) (m3 m2 : List NDArr → List ℝ) : List NDArr → List ℝ :=
  if mode == "3D" then m3 else m2

/-- `MalignancyProcessor._process_model`, at its call from `predict` (where
the `mode` argument is `self.mode`): log unless suppressed, compute the
per-mode output shape and pick the per-mode model, extract all patches,
stack them into one batch, load the checkpoint from `loadPath`, call
`model.load_state_dict`, call `model.eval()`, and run one forward pass under
`torch.no_grad()`.  The scorers `m3`/`m2` (`self.model_3d`/`self.model_2d`)
are opaque batch-to-logits functions. -/
def processModel (m3 m2 : List NDArr → List ℝ) (dl : ExtractArgs → NDArr)
    (st : ProcState) : List Event × Except PyError (List ℝ) :=
  let lg : List Event :=
    if st.suppress_logs then [] else [Event.logInfo ("Processing in " ++ st.mode)]
  let r := extractLoop dl st.mode st.image st.header (outputShapeFor st.mode) st.coords
  match r.2 with
  | Except.error e => (lg ++ r.1, Except.error e)
  | Except.ok patches =>
    (lg ++ r.1 ++
        [Event.loadCkpt (loadPath st.model_name), Event.loadStateDict, Event.setEval,
          Event.forward false patches.length],
      Except.ok (pickModel st.mode m3 m2 patches))

/-- `torch.sigmoid`, the logistic squashing function. -/
noncomputable def sigmoid (x : ℝ) : ℝ := 1 / (1 + Real.exp (-x))

/-- `MalignancyProcessor.predict`: run `_process_model(self.mode)` and return
the pair `(probability, logits)` with
`probability = torch.sigmoid(torch.from_numpy(logits))`. -/
noncomputable def predict (m3 m2 : List NDArr → List ℝ) (dl : ExtractArgs → NDArr)
    (st : ProcState) : List Event × Except PyError (List ℝ × List ℝ) :=
  let r := processModel m3 m2 dl st
  (r.1, Except.map (fun logits => (logits.map sigmoid, logits)) r.2)

/-- Whether an event is a diagnostic log line. -/
def isLogEvent : Event → Bool
  | Event.logInfo _ => true
  | _ => false

/-- The behavioural part of a trace: everything except diagnostic logging. -/
def filterNonLog (tr : List Event) : List Event :=
  tr.filter (fun e => !isLogEvent e)

/-! ### General lemmas about the embedded pipeline -/

theorem extract_patch_events (dl : ExtractArgs → NDArr) (sm : String) (img : Image)
    (hdr : Header) (coord : Vec3) (oshape : List ℕ) (am : String) (ev : Event)
    (h : ev ∈ (extract_patch dl sm img hdr coord oshape am).1) :
    ev = Event.dlCall spacingTuple oshape am := by
  cases ho : hdr.origin with
  | none => simp [extract_patch, ho] at h
  | some o =>
    cases ht : hdr.transform with
    | none => simp [extract_patch, ho, ht] at h
    | some t =>
      cases hs : hdr.spacing with
      | none => simp [extract_patch, ho, ht, hs] at h
      | some s =>
        simp [extract_patch, ho, ht, hs, mkArgs] at h
        simp [h, spacingTuple]

theorem extract_patch_trace_complete (dl : ExtractArgs → NDArr) (sm : String) (img : Image)
    (hdr : Header) (coord : Vec3) (oshape : List ℕ) (am : String) (o : Vec3) (t : Mat3)
    (s : Vec3) (ho : hdr.origin = some o) (ht : hdr.transform = some t)
    (hs : hdr.spacing = some s) :
    (extract_patch dl sm img hdr coord oshape am).1 = [Event.dlCall spacingTuple oshape am] := by
  simp [extract_patch, ho, ht, hs, mkArgs, spacingTuple]

theorem extract_patch_ok_complete (dl : ExtractArgs → NDArr) (sm : String) (img : Image)
    (hdr : Header) (coord : Vec3) (oshape : List ℕ) (am : String) (o : Vec3) (t : Mat3)
    (s : Vec3) (ho : hdr.origin = some o) (ht : hdr.transform = some t)
    (hs : hdr.spacing = some s) :
    ∃ p, (extract_patch dl sm img hdr coord oshape am).2 = Except.ok p := by
  simp only [extract_patch, ho, ht, hs]
  exact ⟨_, rfl⟩

theorem extractLoop_events (dl : ExtractArgs → NDArr) (sm : String) (img : Image)
    (hdr : Header) (oshape : List ℕ) :
    ∀ (cs : List Vec3) (ev : Event), ev ∈ (extractLoop dl sm img hdr oshape cs).1 →
      ev = Event.dlCall spacingTuple oshape sm := by
  intro cs
  induction cs with
  | nil => intro ev h; simp [extractLoop] at h
  | cons c cs ih =>
    intro ev h
    rw [extractLoop] at h
    cases h1 : (extract_patch dl sm img hdr c oshape sm).2 with
    | error e =>
      simp only [h1] at h
      exact extract_patch_events dl sm img hdr c oshape sm ev h
    | ok p =>
      simp only [h1] at h
      cases h2 : (extractLoop dl sm img hdr oshape cs).2 with
      | error e =>
        simp only [h2, List.mem_append] at h
        rcases h with h | h
        · exact extract_patch_events dl sm img hdr c oshape sm ev h
        · exact ih ev h
      | ok ps =>
        simp only [h2, List.mem_append] at h
        rcases h with h | h
        · exact extract_patch_events dl sm img hdr c oshape sm ev h
        · exact ih ev h

theorem extractLoop_ok_length (dl : ExtractArgs → NDArr) (sm : String) (img : Image)
    (hdr : Header) (oshape : List ℕ) :
    ∀ (cs : List Vec3) (ps : List NDArr),
      (extractLoop dl sm img hdr oshape cs).2 = Except.ok ps → ps.length = cs.length := by
  intro cs
  induction cs with
  | nil =>
    intro ps h
    simp [extractLoop] at h
    simp [← h]
  | cons c cs ih =>
    intro ps h
    rw [extractLoop] at h
    cases h1 : (extract_patch dl sm img hdr c oshape sm).2 with
    | error e => simp [h1] at h
    | ok p =>
      simp only [h1] at h
      cases h2 : (extractLoop dl sm img hdr oshape cs).2 with
      | error e => simp [h2] at h
      | ok ps' =>
        simp only [h2, Except.ok.injEq] at h
        subst h
        simp [ih ps' h2]

theorem extractLoop_complete (dl : ExtractArgs → NDArr) (sm : String) (img : Image)
    (hdr : Header) (oshape : List ℕ) (o : Vec3) (t : Mat3) (s : Vec3)
    (ho : hdr.origin = some o) (ht : hdr.transform = some t) (hs : hdr.spacing = some s) :
    ∀ cs : List Vec3,
      (extractLoop dl sm img hdr oshape cs).1 =
        cs.map (fun _ => Event.dlCall spacingTuple oshape sm) ∧
      ∃ ps, (extractLoop dl sm img hdr oshape cs).2 = Except.ok ps ∧ ps.length = cs.length := by
  intro cs
  induction cs with
  | nil => exact ⟨by simp [extractLoop], [], by simp [extractLoop], rfl⟩
  | cons c cs ih =>
    obtain ⟨htr, ps, hps, hlen⟩ := ih
    obtain ⟨p, hp⟩ := extract_patch_ok_complete dl sm img hdr c oshape sm o t s ho ht hs
    have htr1 := extract_patch_trace_complete dl sm img hdr c oshape sm o t s ho ht hs
    refine ⟨?_, p :: ps, ?_, ?_⟩
    · rw [extractLoop]
      simp only [hp, hps, htr1, htr]
      simp
    · rw [extractLoop]
      simp only [hp, hps]
    · simp [hlen]

theorem processModel_dlCall (m3 m2 : List NDArr → List ℝ) (dl : ExtractArgs → NDArr)
    (st : ProcState) (vs : ℚ × ℚ × ℚ) (os : List ℕ) (md : String)
    (h : Event.dlCall vs os md ∈ (processModel m3 m2 dl st).1) :
    vs = spacingTuple ∧ os = outputShapeFor st.mode ∧ md = st.mode := by
  simp only [processModel] at h
  cases hr : (extractLoop dl st.mode st.image st.header (outputShapeFor st.mode)
      st.coords).2 with
  | error e =>
    simp only [hr, List.mem_append] at h
    rcases h with h | h
    · cases hsup : st.suppress_logs <;> simp [hsup] at h
    · have he := extractLoop_events dl st.mode st.image st.header _ st.coords _ h
      simp only [Event.dlCall.injEq] at he
      exact ⟨he.1, he.2.1, he.2.2⟩
  | ok ps =>
    simp only [hr, List.mem_append] at h
    rcases h with (h | h) | h
    · cases hsup : st.suppress_logs <;> simp [hsup] at h
    · have he := extractLoop_events dl st.mode st.image st.header _ st.coords _ h
      simp only [Event.dlCall.injEq] at he
      exact ⟨he.1, he.2.1, he.2.2⟩
    · simp at h

theorem processModel_trace_complete (m3 m2 : List NDArr → List ℝ) (dl : ExtractArgs → NDArr)
    (st : ProcState) (o : Vec3) (t : Mat3) (s : Vec3)
    (ho : st.header.origin = some o) (ht : st.header.transform = some t)
    (hs : st.header.spacing = some s) :
    (processModel m3 m2 dl st).1 =
      (if st.suppress_logs then [] else [Event.logInfo ("Processing in " ++ st.mode)]) ++
      st.coords.map (fun _ => Event.dlCall spacingTuple (outputShapeFor st.mode) st.mode) ++
      [Event.loadCkpt (loadPath st.model_name), Event.loadStateDict, Event.setEval,
        Event.forward false st.coords.length] := by
  obtain ⟨htr, ps, hps, hlen⟩ := extractLoop_complete dl st.mode st.image st.header
    (outputShapeFor st.mode) o t s ho ht hs st.coords
  simp only [processModel, hps, htr, hlen]

theorem processModel_result_complete (m3 m2 : List NDArr → List ℝ) (dl : ExtractArgs → NDArr)
    (st : ProcState) (o : Vec3) (t : Mat3) (s : Vec3)
    (ho : st.header.origin = some o) (ht : st.header.transform = some t)
    (hs : st.header.spacing = some s) :
    ∃ ps : List NDArr, ps.length = st.coords.length ∧
      (processModel m3 m2 dl st).2 = Except.ok (pickModel st.mode m3 m2 ps) := by
  obtain ⟨htr, ps, hps, hlen⟩ := extractLoop_complete dl st.mode st.image st.header
    (outputShapeFor st.mode) o t s ho ht hs st.coords
  exact ⟨ps, hlen, by simp only [processModel, hps]⟩

theorem processModel_ok (m3 m2 : List NDArr → List ℝ) (dl : ExtractArgs → NDArr)
    (st : ProcState) (ls : List ℝ) (h : (processModel m3 m2 dl st).2 = Except.ok ls) :
    ∃ ps : List NDArr, ps.length = st.coords.length ∧ ls = pickModel st.mode m3 m2 ps := by
  simp only [processModel] at h
  cases hr : (extractLoop dl st.mode st.image st.header (outputShapeFor st.mode)
      st.coords).2 with
  | error e => simp [hr] at h
  | ok ps =>
    simp only [hr, Except.ok.injEq] at h
    exact ⟨ps, extractLoop_ok_length dl st.mode st.image st.header _ st.coords ps hr, h.symm⟩

theorem predict_ok (m3 m2 : List NDArr → List ℝ) (dl : ExtractArgs → NDArr)
    (st : ProcState) (probability logits : List ℝ)
    (h : (predict m3 m2 dl st).2 = Except.ok (probability, logits)) :
    (processModel m3 m2 dl st).2 = Except.ok logits ∧ probability = logits.map sigmoid := by
  simp only [predict] at h
  cases hr : (processModel m3 m2 dl st).2 with
  | error e => simp [hr, Except.map] at h
  | ok ls =>
    simp only [hr, Except.map, Except.ok.injEq, Prod.mk.injEq] at h
    obtain ⟨h1, h2⟩ := h
    subst h2
    exact ⟨rfl, h1.symm⟩

theorem predict_trace (m3 m2 : List NDArr → List ℝ) (dl : ExtractArgs → NDArr)
    (st : ProcState) : (predict m3 m2 dl st).1 = (processModel m3 m2 dl st).1 := rfl

theorem strData_append (s t : String) : (s ++ t).data = s.data ++ t.data := by
  cases s; cases t; rfl



theorem strExt (s t : String) (h : s.data = t.data) : s = t := by
  cases s; cases t; exact congrArg String.mk h

theorem strAppend_assoc (a b c : String) : a ++ b ++ c = a ++ (b ++ c) := by
  apply strExt
  simp [strData_append, List.append_assoc]

theorem lastIsSlash_append (a b : String) (hb : b.data ≠ []) :
    lastIsSlash (a ++ b) = lastIsSlash b := by
  have hrev : b.data.reverse ≠ [] := by simpa using hb
  obtain ⟨c, t, hct⟩ := List.exists_cons_of_ne_nil hrev
  unfold lastIsSlash
  rw [strData_append, List.reverse_append, hct]
  simp

theorem dataAppend_ne_nil (a b : String) (ha : a.data ≠ []) : (a ++ b).data ≠ [] := by
  rw [strData_append]
  simp [ha]

theorem loadPath_eq (name : String) (h1 : firstIsSlash name = false)
    (h2 : lastIsSlash name = false) (h3 : name.data ≠ []) :
    loadPath name = model_root ++ name ++ "/best_metric_model.pth" := by
  have e1 : pyPathJoin model_root name = model_root ++ name := by
    rw [pyPathJoin, h1]
    rw [if_neg (by decide), if_neg (by decide), if_pos (by decide)]
  have hne : (model_root ++ name).data ≠ [] := dataAppend_ne_nil model_root name (by decide)
  have hlast : lastIsSlash (model_root ++ name) = false := by
    rw [lastIsSlash_append model_root name h3, h2]
  rw [loadPath, e1, pyPathJoin]
  rw [if_neg (by decide), if_neg (by simpa using hne), if_neg (by simp [hlast])]
  rw [strAppend_assoc]
  rfl

theorem filterNonLog_append (x y : List Event) :
    filterNonLog (x ++ y) = filterNonLog x ++ filterNonLog y := by
  simp [filterNonLog]

theorem filterNonLog_logPrefix (b : Bool) (m : String) (x : List Event) :
    filterNonLog ((if b then [] else [Event.logInfo m]) ++ x) = filterNonLog x := by
  cases b <;> simp [filterNonLog, isLogEvent]

theorem processModel_suppress (m3 m2 : List NDArr → List ℝ) (dl : ExtractArgs → NDArr)
    (mode name : String) (img : Image) (hdr : Header) (cs : List Vec3) (b1 b2 : Bool) :
    (processModel m3 m2 dl (ProcState.mk mode name b1 img hdr cs)).2 =
      (processModel m3 m2 dl (ProcState.mk mode name b2 img hdr cs)).2 ∧
    filterNonLog (processModel m3 m2 dl (ProcState.mk mode name b1 img hdr cs)).1 =
      filterNonLog (processModel m3 m2 dl (ProcState.mk mode name b2 img hdr cs)).1 := by
  simp only [processModel]
  cases hr : (extractLoop dl mode img hdr (outputShapeFor mode) cs).2 with
  | error e =>
    refine ⟨rfl, ?_⟩
    simp only []
    rw [filterNonLog_logPrefix, filterNonLog_logPrefix]
  | ok ps =>
    refine ⟨rfl, ?_⟩
    simp only []
    rw [List.append_assoc, List.append_assoc, filterNonLog_logPrefix, filterNonLog_logPrefix]

/-! ### Concrete instances used by witnesses and counterexamples -/

/-- A concrete all-zero volume. -/
def exImage : Image := fun _ _ _ => 0

/-- A concrete orientation matrix. -/
def exMat : Mat3 := fun _ _ => 0

/-- A complete header carrying all three required keys. -/
def exHeaderFull : Header :=
  { origin := some (0, 0, 0), spacing := some (1, 1, 1), transform := some exMat }

/-- A header whose `origin` key is missing. -/
def exHeaderNoOrigin : Header :=
  { origin := none, spacing := some (1, 1, 1), transform := some exMat }

/-- A concrete resampler collaborator returning an all-zero 3D patch. -/
def exDl : ExtractArgs → NDArr := fun _ =>
  { shape := [depth_px, 3, size_px, size_px], data := fun _ _ _ _ => 0 }

/-- A concrete 3D scorer: one zero logit per batch item. -/
def exModel3 : List NDArr → List ℝ := fun b => b.map (fun _ => 0)

/-- A concrete 2D scorer: one zero logit per batch item. -/
def exModel2 : List NDArr → List ℝ := fun b => b.map (fun _ => 0)

/-- A concrete candidate coordinate. -/
def exCoord : Vec3 := (0, 0, 0)

/-- A 3D processor instance with complete inputs and no candidates. -/
def exState0 : ProcState :=
  { mode := "3D", model_name := "finetune-hiera", suppress_logs := true,
    image := exImage, header := exHeaderFull, coords := [] }

/-- The same instance with one candidate. -/
def exState1 : ProcState := { exState0 with coords := [exCoord] }

/-- The instance after `define_inputs` with a header missing `origin` and no
candidates. -/
def exStateNoOrigin0 : ProcState := define_inputs exState0 exImage exHeaderNoOrigin []

/-- The instance after `define_inputs` with a header missing `origin` and one
candidate. -/
def exStateNoOrigin1 : ProcState := define_inputs exState0 exImage exHeaderNoOrigin [exCoord]

/-- A constructible instance whose model name starts with a slash. -/
def exStateSlash : ProcState := { exState0 with model_name := "/hiera" }

/-- A header whose `transform` key is missing (and nothing else). -/
def exHeaderNoTransform : Header :=
  { origin := some (0, 0, 0), spacing := some (1, 1, 1), transform := none }

/-- A header whose `spacing` key is missing (and nothing else). -/
def exHeaderNoSpacing : Header :=
  { origin := some (0, 0, 0), spacing := none, transform := some exMat }

/-- The instance after `define_inputs` with a header missing only `transform`
and one candidate. -/
def exStateNoTransform1 : ProcState :=
  define_inputs exState0 exImage exHeaderNoTransform [exCoord]

/-- The instance after `define_inputs` with a header missing only `spacing`
and one candidate. -/
def exStateNoSpacing1 : ProcState :=
  define_inputs exState0 exImage exHeaderNoSpacing [exCoord]



theorem processModel_extract_error (m3 m2 : List NDArr → List ℝ) (dl : ExtractArgs → NDArr)
    (st : ProcState) (c : Vec3) (cs : List Vec3) (e : PyError) (hc : st.coords = c :: cs)
    (h1 : extract_patch dl st.mode st.image st.header c (outputShapeFor st.mode) st.mode
      = ([], Except.error e)) :
    (processModel m3 m2 dl st).2 = Except.error e ∧
    (∀ p, Event.loadCkpt p ∉ (processModel m3 m2 dl st).1) ∧
    (∀ g n, Event.forward g n ∉ (processModel m3 m2 dl st).1) ∧
    (∀ vs os md, Event.dlCall vs os md ∉ (processModel m3 m2 dl st).1) := by
  have h2 : extractLoop dl st.mode st.image st.header (outputShapeFor st.mode) st.coords
      = ([], Except.error e) := by
    rw [hc, extractLoop, h1]
  have htr : (processModel m3 m2 dl st).1 =
      (if st.suppress_logs then [] else [Event.logInfo ("Processing in " ++ st.mode)]) ++ [] := by
    simp only [processModel, h2]
  refine ⟨by simp only [processModel, h2], ?_, ?_, ?_⟩
  · intro p hp
    rw [htr] at hp
    cases hsup : st.suppress_logs <;> simp [hsup] at hp
  · intro g n hp
    rw [htr] at hp
    cases hsup : st.suppress_logs <;> simp [hsup] at hp
  · intro vs os md hp
    rw [htr] at hp
    cases hsup : st.suppress_logs <;> simp [hsup] at hp

/-! ### Claim theorems -/

/-- C1: for every prediction request that returns a result, `predict` returns
a pair `(probability, logits)` in which every probability equals the logistic
sigmoid applied elementwise to the corresponding raw logit, index for index,
and the two returned sequences are aligned with each other. -/
theorem C1_predict_sigmoid (m3 m2 : List NDArr → List ℝ) (dl : ExtractArgs → NDArr)
    (st : ProcState) (probability logits : List ℝ)
    (h : (predict m3 m2 dl st).2 = Except.ok (probability, logits)) :
    probability = logits.map sigmoid ∧
    probability.length = logits.length ∧
    ∀ i : ℕ, probability[i]? = (logits[i]?).map sigmoid := by
  obtain ⟨-, hmap⟩ := predict_ok m3 m2 dl st probability logits h
  subst hmap
  refine ⟨rfl, by simp, ?_⟩
  intro i
  simp

/-- Witness for C1 at a concrete run: the empty-candidate 3D instance returns
`ok ([], [])`, whose probability list is the sigmoid image of its logits. -/
theorem C1_witness :
    (predict exModel3 exModel2 exDl exState0).2 = Except.ok ([], []) ∧
    ([] : List ℝ) = ([] : List ℝ).map sigmoid := by
  have h : (predict exModel3 exModel2 exDl exState0).2 = Except.ok ([], []) := rfl
  exact ⟨h, (C1_predict_sigmoid exModel3 exModel2 exDl exState0 [] [] h).1⟩

/-- C2 (amended): the selector table of `__init__`, with its rows tested in
order — mode "3D" with a name containing "hiera" (case-insensitively) selects
the 3D Hiera variant; mode "2D" with a name containing "hiera" selects the 2D
Hiera variant; mode "2D" with a name containing "vit" selects the 2D ViT
variant only when the name does not also contain "hiera"; every other
`(mode, model_name)` combination fails immediately with the `ValueError`,
with no variant constructed and no fallback. -/
theorem C2_selector_table (mode name : String) :
    ((mode = "3D" ∧ pyIn "hiera" (pyLower name) = true) →
        selectVariant mode name = Except.ok ModelVariant.hiera3D) ∧
    ((mode = "2D" ∧ pyIn "hiera" (pyLower name) = true) →
        selectVariant mode name = Except.ok ModelVariant.hiera2D) ∧
    ((mode = "2D" ∧ pyIn "hiera" (pyLower name) = false ∧ pyIn "vit" (pyLower name) = true) →
        selectVariant mode name = Except.ok ModelVariant.vit2D) ∧
    ((¬(mode = "3D" ∧ pyIn "hiera" (pyLower name) = true) ∧
      ¬(mode = "2D" ∧ pyIn "hiera" (pyLower name) = true) ∧
      ¬(mode = "2D" ∧ pyIn "vit" (pyLower name) = true)) →
        selectVariant mode name =
          Except.error (PyError.valueError "Invalid mode and/or model_name.")) := by
  refine ⟨?_, ?_, ?_, ?_⟩
  · rintro ⟨hm, hh⟩
    subst hm
    simp [selectVariant, hh]
  · rintro ⟨hm, hh⟩
    subst hm
    simp [selectVariant, hh]
  · rintro ⟨hm, hh, hv⟩
    subst hm
    simp [selectVariant, hh, hv]
  · rintro ⟨n1, n2, n3⟩
    rw [selectVariant]
    rw [if_neg ?_, if_neg ?_, if_neg ?_]
    · intro hc
      rcases Bool.and_eq_true _ _ |>.mp hc with ⟨hm, hv⟩
      exact n3 ⟨by simpa using hm, hv⟩
    · intro hc
      rcases Bool.and_eq_true _ _ |>.mp hc with ⟨hm, hh⟩
      exact n2 ⟨by simpa using hm, hh⟩
    · intro hc
      rcases Bool.and_eq_true _ _ |>.mp hc with ⟨hm, hh⟩
      exact n1 ⟨by simpa using hm, hh⟩

/-- Witness for C2 at concrete inputs: the valid pair ("3D",
"finetune-hiera") succeeds with the 3D Hiera variant, and the invalid pair
("2D", "resnet") fails with the `ValueError`. -/
theorem C2_witness :
    selectVariant "3D" "finetune-hiera" = Except.ok ModelVariant.hiera3D ∧
    selectVariant "2D" "resnet" =
      Except.error (PyError.valueError "Invalid mode and/or model_name.") := by
  constructor
  · exact (C2_selector_table "3D" "finetune-hiera").1 ⟨rfl, by decide⟩
  · exact (C2_selector_table "2D" "resnet").2.2.2 ⟨by decide, by decide, by decide⟩

/-- C2 counterexample: for mode "2D" and the model name "hieravit", which
contains the substring "vit", construction selects the 2D Hiera variant and
not the 2D ViT variant the claim's table row promises for every name
containing "vit". -/
theorem C2_cex :
    selectVariant "2D" "hieravit" = Except.ok ModelVariant.hiera2D ∧
    selectVariant "2D" "hieravit" ≠ Except.ok ModelVariant.vit2D := by
  constructor
  · rfl
  · intro h
    rw [show selectVariant "2D" "hieravit" = Except.ok ModelVariant.hiera2D from rfl] at h
    simp at h

/-- C3 (amended): for every candidate sequence, a returned result has
probability and logit sequences whose lengths equal the input length (given
the scorers' one-logit-per-item contract), and an empty candidate sequence
yields the empty result `ok ([], [])` without error — but the model IS
invoked, on an empty batch (a `forward` event with batch size 0 occurs). -/
theorem C3_lengths (m3 m2 : List NDArr → List ℝ) (dl : ExtractArgs → NDArr) (st : ProcState)
    (hm3 : ∀ b, (m3 b).length = b.length) (hm2 : ∀ b, (m2 b).length = b.length) :
    (∀ probability logits : List ℝ,
        (predict m3 m2 dl st).2 = Except.ok (probability, logits) →
        probability.length = st.coords.length ∧ logits.length = st.coords.length) ∧
    (st.coords = [] →
        (predict m3 m2 dl st).2 = Except.ok ([], []) ∧
        Event.forward false 0 ∈ (predict m3 m2 dl st).1) := by
  have hpick : ∀ ps : List NDArr, (pickModel st.mode m3 m2 ps).length = ps.length := by
    intro ps
    rw [pickModel]
    cases hb : (st.mode == "3D") <;> simp [hm3, hm2]
  constructor
  · intro probability logits h
    obtain ⟨hpm, hmap⟩ := predict_ok m3 m2 dl st probability logits h
    obtain ⟨ps, hlen, hl⟩ := processModel_ok m3 m2 dl st logits hpm
    subst hmap
    subst hl
    constructor
    · simp [hpick, hlen]
    · simp [hpick, hlen]
  · intro hc
    have h0 : extractLoop dl st.mode st.image st.header (outputShapeFor st.mode) st.coords
        = ([], Except.ok []) := by rw [hc, extractLoop]
    have hnil : pickModel st.mode m3 m2 [] = [] := by
      rw [pickModel]
      cases hb : (st.mode == "3D")
      · simp only [Bool.false_eq_true, if_false]
        have := hm2 []
        simpa using List.length_eq_zero.mp (by simpa using this)
      · simp only [if_true]
        have := hm3 []
        simpa using List.length_eq_zero.mp (by simpa using this)
    constructor
    · simp only [predict, processModel, h0]
      simp [hnil, Except.map]
    · rw [predict_trace]
      simp only [processModel, h0]
      cases hsup : st.suppress_logs <;> simp [hsup]

/-- Witness for C3: the empty-candidate instance returns the empty result and
its trace holds a batch-size-0 forward event. -/
theorem C3_witness :
    (predict exModel3 exModel2 exDl exState0).2 = Except.ok ([], []) ∧
    Event.forward false 0 ∈ (predict exModel3 exModel2 exDl exState0).1 :=
  (C3_lengths exModel3 exModel2 exDl exState0
    (fun b => by simp [exModel3]) (fun b => by simp [exModel2])).2 rfl

/-- C3 counterexample: on an empty candidate sequence `_process_model`
nevertheless invokes the model — its trace contains a forward event (on an
empty batch), contradicting "without invoking the model". -/
theorem C3_cex :
    (processModel exModel3 exModel2 exDl exState0).2 = Except.ok [] ∧
    Event.forward false 0 ∈ (processModel exModel3 exModel2 exDl exState0).1 := by
  exact ⟨rfl, by decide⟩

/-- C4: for every extracted patch the three normalization steps happen in the
fixed order clip-and-scale, then mode-dependent channel normalization (2D
means `[0.485, 0.456, 0.406]` and stds `[0.229, 0.224, 0.225]`; 3D means
`[0.45, 0.45, 0.45]` and stds `[0.225, 0.225, 0.225]`, functions of the mode
only), then — in 3D mode only — the permutation to `(Channel, Depth, Height,
Width)`; the resulting value at each index is exactly the composite of the
three steps applied to the resampler's raw value. -/
theorem C4_normalization (dl : ExtractArgs → NDArr) (img : Image) (hdr : Header)
    (coord : Vec3) (oshape : List ℕ) (am : String) (o : Vec3) (t : Mat3) (s : Vec3)
    (ho : hdr.origin = some o) (ht : hdr.transform = some t) (hs : hdr.spacing = some s) :
    (normMean "2D" 0 = 0.485 ∧ normMean "2D" 1 = 0.456 ∧ normMean "2D" 2 = 0.406 ∧
     normStd "2D" 0 = 0.229 ∧ normStd "2D" 1 = 0.224 ∧ normStd "2D" 2 = 0.225) ∧
    (normMean "3D" 0 = 0.45 ∧ normMean "3D" 1 = 0.45 ∧ normMean "3D" 2 = 0.45 ∧
     normStd "3D" 0 = 0.225 ∧ normStd "3D" 1 = 0.225 ∧ normStd "3D" 2 = 0.225) ∧
    (∀ v : ℚ, clip_and_scale v = (min (max v clipLow) clipHigh - clipLow) / (clipHigh - clipLow) ∧
       0 ≤ clip_and_scale v ∧ clip_and_scale v ≤ 1) ∧
    ((extract_patch dl "2D" img hdr coord oshape am).2 = Except.ok
      { shape := (dl (mkArgs img coord o t s oshape am)).shape
        data := fun a c h w =>
          (clip_and_scale ((dl (mkArgs img coord o t s oshape am)).data a c h w) -
            normMean "2D" c) / normStd "2D" c }) ∧
    ((extract_patch dl "3D" img hdr coord oshape am).2 = Except.ok
      { shape :=
          match (dl (mkArgs img coord o t s oshape am)).shape with
          | a :: b :: rest => b :: a :: rest
          | l => l
        data := fun c d h w =>
          (clip_and_scale ((dl (mkArgs img coord o t s oshape am)).data d c h w) -
            normMean "3D" c) / normStd "3D" c }) := by
  refine ⟨⟨rfl, rfl, rfl, rfl, rfl, rfl⟩, ⟨rfl, rfl, rfl, rfl, rfl, rfl⟩, ?_, ?_, ?_⟩
  · intro v
    have e : clip_and_scale v =
        (min (max v clipLow) clipHigh - clipLow) / (clipHigh - clipLow) := rfl
    have hlo : clipLow ≤ min (max v clipLow) clipHigh :=
      le_min (le_max_right v clipLow) (by rw [clipLow, clipHigh]; norm_num)
    have hhi : min (max v clipLow) clipHigh ≤ clipHigh := min_le_right _ _
    refine ⟨rfl, ?_, ?_⟩
    · rw [e]
      apply div_nonneg
      · linarith
      · rw [clipLow, clipHigh]; norm_num
    · rw [e, div_le_one (by rw [clipLow, clipHigh]; norm_num)]
      linarith
  · simp only [extract_patch, ho, ht, hs]
    rfl
  · simp only [extract_patch, ho, ht, hs]
    rfl

/-- Witness for C4 at a concrete complete header: the mode-dependent
constants and the `[0,1]` bound of clip-and-scale at the raw value 100. -/
theorem C4_witness :
    (normMean "2D" 0 = 0.485 ∧ normMean "2D" 1 = 0.456 ∧ normMean "2D" 2 = 0.406 ∧
     normStd "2D" 0 = 0.229 ∧ normStd "2D" 1 = 0.224 ∧ normStd "2D" 2 = 0.225) ∧
    (normMean "3D" 0 = 0.45 ∧ normMean "3D" 1 = 0.45 ∧ normMean "3D" 2 = 0.45 ∧
     normStd "3D" 0 = 0.225 ∧ normStd "3D" 1 = 0.225 ∧ normStd "3D" 2 = 0.225) ∧
    (0 : ℚ) ≤ clip_and_scale 100 ∧ clip_and_scale 100 ≤ 1 := by
  have h := C4_normalization exDl exImage exHeaderFull exCoord [16, 64, 64] "3D"
    (0, 0, 0) exMat (1, 1, 1) rfl rfl rfl
  exact ⟨h.1, h.2.1, (h.2.2.1 100).2.1, (h.2.2.1 100).2.2⟩

/-- C5: every shape the processor requests from the resampler is exactly
`[16, 64, 64]` (that is `[depth_px, size_px, size_px]`) in 3D mode and
`[1, 64, 64]` in 2D mode, and the three construction-time constants are
`depth_px = 16`, `size_px = 64`, `size_mm = 50` — independent of the request,
the volume, and the candidate. -/
theorem C5_patch_shape (m3 m2 : List NDArr → List ℝ) (dl : ExtractArgs → NDArr)
    (st : ProcState) (vs : ℚ × ℚ × ℚ) (os : List ℕ) (md : String)
    (h : Event.dlCall vs os md ∈ (processModel m3 m2 dl st).1) :
    os = (if st.mode == "3D" then [16, 64, 64] else [1, 64, 64]) ∧
    depth_px = 16 ∧ size_px = 64 ∧ size_mm = 50 := by
  obtain ⟨-, h2, -⟩ := processModel_dlCall m3 m2 dl st vs os md h
  refine ⟨?_, rfl, rfl, rfl⟩
  rw [h2, outputShapeFor]
  simp only [depth_px, size_px]

/-- Witness for C5 at a concrete one-candidate 3D run. -/
theorem C5_witness :
    outputShapeFor "3D" = [16, 64, 64] ∧ depth_px = 16 ∧ size_px = 64 ∧ size_mm = 50 := by
  have hmem : Event.dlCall spacingTuple (outputShapeFor "3D") "3D"
      ∈ (processModel exModel3 exModel2 exDl exState1).1 := List.Mem.head _
  have h := C5_patch_shape exModel3 exModel2 exDl exState1 _ _ _ hmem
  simpa [exState1, exState0] using h

/-- C6 (amended): a header missing any of `origin`/`transform`/`spacing`
surfaces as a `KeyError` for the first missing key — in the evaluation order
origin, transform, spacing of the resampler call's keyword arguments —
raised inside `extract_patch` while processing the first candidate; not as a
`ConfigurationError` and not before extraction begins.  The trace shows no
checkpoint load, no forward pass and no resampler call reached.  (The
counterexample shows that with an empty candidate list the missing key is
never detected at all.) -/
theorem C6_missing_header (m3 m2 : List NDArr → List ℝ) (dl : ExtractArgs → NDArr)
    (st : ProcState) (c : Vec3) (cs : List Vec3) (k : String) (hc : st.coords = c :: cs)
    (hk : firstMissingKey st.header = some k) :
    (processModel m3 m2 dl st).2 = Except.error (PyError.keyError k) ∧
    (∀ p, Event.loadCkpt p ∉ (processModel m3 m2 dl st).1) ∧
    (∀ g n, Event.forward g n ∉ (processModel m3 m2 dl st).1) ∧
    (∀ vs os md, Event.dlCall vs os md ∉ (processModel m3 m2 dl st).1) := by
  have h1 : extract_patch dl st.mode st.image st.header c (outputShapeFor st.mode) st.mode
      = ([], Except.error (PyError.keyError k)) := by
    cases ho : st.header.origin with
    | none =>
      have hk' : k = "origin" := by
        simp [firstMissingKey, ho] at hk
        exact hk.symm
      subst hk'
      rw [extract_patch, ho]
    | some o =>
      cases ht : st.header.transform with
      | none =>
        have hk' : k = "transform" := by
          simp [firstMissingKey, ho, ht] at hk
          exact hk.symm
        subst hk'
        simp only [extract_patch, ho, ht]
      | some t =>
        cases hs : st.header.spacing with
        | none =>
          have hk' : k = "spacing" := by
            simp [firstMissingKey, ho, ht, hs] at hk
            exact hk.symm
          subst hk'
          simp only [extract_patch, ho, ht, hs]
        | some s =>
          simp [firstMissingKey, ho, ht, hs] at hk
  exact processModel_extract_error m3 m2 dl st c cs (PyError.keyError k) hc h1

/-- Witness for C6: three concrete one-candidate requests, each missing a
different header key, fail with the `KeyError` of exactly that key. -/
theorem C6_witness :
    (processModel exModel3 exModel2 exDl exStateNoOrigin1).2 =
      Except.error (PyError.keyError "origin") ∧
    (processModel exModel3 exModel2 exDl exStateNoTransform1).2 =
      Except.error (PyError.keyError "transform") ∧
    (processModel exModel3 exModel2 exDl exStateNoSpacing1).2 =
      Except.error (PyError.keyError "spacing") :=
  ⟨(C6_missing_header exModel3 exModel2 exDl exStateNoOrigin1 exCoord [] "origin" rfl rfl).1,
   (C6_missing_header exModel3 exModel2 exDl exStateNoTransform1 exCoord [] "transform"
      rfl rfl).1,
   (C6_missing_header exModel3 exModel2 exDl exStateNoSpacing1 exCoord [] "spacing"
      rfl rfl).1⟩

/-- C6 counterexample: with a header missing `origin` and an empty candidate
list, the request does NOT fail — it completes with `ok []` and the model
still runs — so the missing key is neither checked once per request nor
surfaced before compute work begins. -/
theorem C6_cex :
    exStateNoOrigin0.header.origin = none ∧
    (processModel exModel3 exModel2 exDl exStateNoOrigin0).2 = Except.ok [] ∧
    Event.forward false 0 ∈ (processModel exModel3 exModel2 exDl exStateNoOrigin0).1 := by
  exact ⟨rfl, rfl, by decide⟩

/-- C7 (amended): on every completing prediction call the trace ends with, in
order, a checkpoint load from `os.path.join(model_root, model_name,
"best_metric_model.pth")`, a `load_state_dict`, a switch to evaluation mode,
and a single forward pass with gradients disabled; no weight cache exists
across calls.  For every model name that neither starts nor ends with "/",
the joined path equals `<model_root><model_name>/best_metric_model.pth`. -/
theorem C7_per_call_load (m3 m2 : List NDArr → List ℝ) (dl : ExtractArgs → NDArr)
    (st : ProcState) (o : Vec3) (t : Mat3) (s : Vec3)
    (ho : st.header.origin = some o) (ht : st.header.transform = some t)
    (hs : st.header.spacing = some s)
    (h1 : firstIsSlash st.model_name = false) (h2 : lastIsSlash st.model_name = false)
    (h3 : st.model_name.data ≠ []) :
    (processModel m3 m2 dl st).1 =
      (if st.suppress_logs then [] else [Event.logInfo ("Processing in " ++ st.mode)]) ++
      st.coords.map (fun _ => Event.dlCall spacingTuple (outputShapeFor st.mode) st.mode) ++
      [Event.loadCkpt (model_root ++ st.model_name ++ "/best_metric_model.pth"),
        Event.loadStateDict, Event.setEval, Event.forward false st.coords.length] := by
  rw [processModel_trace_complete m3 m2 dl st o t s ho ht hs,
    loadPath_eq st.model_name h1 h2 h3]

/-- Witness for C7 at a concrete one-candidate run with the model name
"finetune-hiera". -/
theorem C7_witness :
    (processModel exModel3 exModel2 exDl exState1).1 =
      [Event.dlCall spacingTuple (outputShapeFor "3D") "3D",
        Event.loadCkpt (model_root ++ "finetune-hiera" ++ "/best_metric_model.pth"),
        Event.loadStateDict, Event.setEval, Event.forward false 1] := by
  have h := C7_per_call_load exModel3 exModel2 exDl exState1 (0, 0, 0) exMat (1, 1, 1)
    rfl rfl rfl (by decide) (by decide) (by decide)
  simpa [exState1, exState0] using h

/-- C7 counterexample: the constructible model name "/hiera" (it contains
"hiera", so 3D construction accepts it) makes `os.path.join` discard
`model_root` entirely: the checkpoint is loaded from
"/hiera/best_metric_model.pth", which is not under
`<model_root>/<model_name>/best_metric_model.pth` on either reading of that
template. -/
theorem C7_cex :
    selectVariant "3D" "/hiera" = Except.ok ModelVariant.hiera3D ∧
    (processModel exModel3 exModel2 exDl exStateSlash).1 =
      [Event.loadCkpt "/hiera/best_metric_model.pth",
        Event.loadStateDict, Event.setEval, Event.forward false 0] ∧
    "/hiera/best_metric_model.pth" ≠ model_root ++ "/hiera" ++ "/best_metric_model.pth" ∧
    "/hiera/best_metric_model.pth" ≠ "/opt/app/resources/hiera/best_metric_model.pth" := by
  exact ⟨rfl, by decide, by decide, by decide⟩

/-- C8: for every call the resampler receives, the target voxel pitch is the
fixed tuple `(size_mm/size_px, size_mm/size_px, size_mm/size_px)` =
`(50/64, 50/64, 50/64)` millimetres on all three axes — for every processor
state, both modes, every request and every source volume spacing. -/
theorem C8_voxel_pitch (m3 m2 : List NDArr → List ℝ) (dl : ExtractArgs → NDArr)
    (st : ProcState) (vs : ℚ × ℚ × ℚ) (os : List ℕ) (md : String)
    (h : Event.dlCall vs os md ∈ (processModel m3 m2 dl st).1) :
    vs = (size_mm / (size_px : ℚ), size_mm / (size_px : ℚ), size_mm / (size_px : ℚ)) ∧
    size_mm / (size_px : ℚ) = 50 / 64 ∧ md = st.mode := by
  obtain ⟨h1, -, h3⟩ := processModel_dlCall m3 m2 dl st vs os md h
  exact ⟨h1, by simp [size_mm, size_px], h3⟩

/-- Witness for C8 at a concrete one-candidate 3D run. -/
theorem C8_witness :
    spacingTuple = (size_mm / (size_px : ℚ), size_mm / (size_px : ℚ), size_mm / (size_px : ℚ)) ∧
    size_mm / (size_px : ℚ) = 50 / 64 := by
  have hmem : Event.dlCall spacingTuple (outputShapeFor "3D") "3D"
      ∈ (processModel exModel3 exModel2 exDl exState1).1 := List.Mem.head _
  have h := C8_voxel_pitch exModel3 exModel2 exDl exState1 _ _ _ hmem
  exact ⟨h.1, h.2.1⟩

/-- C9: two processor instances differing only in `suppress_logs` select the
same variant at construction, return identical `(probability, logits)`
results from `predict`, and produce identical traces once diagnostic log
events are removed: `suppress_logs` controls diagnostic output only. -/
theorem C9_suppress_no_effect (m3 m2 : List NDArr → List ℝ) (dl : ExtractArgs → NDArr)
    (mode name : String) (img : Image) (hdr : Header) (cs : List Vec3) :
    (initProcessor mode false name).2 = (initProcessor mode true name).2 ∧
    (predict m3 m2 dl (ProcState.mk mode name false img hdr cs)).2 =
      (predict m3 m2 dl (ProcState.mk mode name true img hdr cs)).2 ∧
    filterNonLog (predict m3 m2 dl (ProcState.mk mode name false img hdr cs)).1 =
      filterNonLog (predict m3 m2 dl (ProcState.mk mode name true img hdr cs)).1 := by
  obtain ⟨h2, h1⟩ := processModel_suppress m3 m2 dl mode name img hdr cs false true
  refine ⟨rfl, ?_, ?_⟩
  · simp only [predict]
    rw [h2]
  · rw [predict_trace, predict_trace, h1]

/-- C10: whenever the lowered model name contains both "hiera" and "vit", 2D
construction selects the 2D Hiera variant, never the 2D ViT one — the
"hiera" branch of the selector is tested before the "vit" branch. -/
theorem C10_hiera_priority (name : String)
    (hh : pyIn "hiera" (pyLower name) = true) (hv : pyIn "vit" (pyLower name) = true) :
    selectVariant "2D" name = Except.ok ModelVariant.hiera2D := by
  simp [selectVariant, hh]

/-- Witness for C10 at the concrete name "hiera-vit". -/
theorem C10_witness : selectVariant "2D" "hiera-vit" = Except.ok ModelVariant.hiera2D :=
  C10_hiera_priority "hiera-vit" (by decide) (by decide)

end LUNA25
